import Mathlib

/-!
Verification development for the zdfs layer-chain backing-store preparation
code (`zdfs.go` of github.com/data-accelerator/zdfs).

The Go code is shallowly embedded as pure Lean functions over an explicit
filesystem state.  Filesystem contents are modelled per layer directory:
each layer directory has a `fs` subdirectory (legacy marker files), a
`block` subdirectory (marker files plus the `config.v1.json` descriptor,
the latter kept as a parsed structure since it is only ever written by the
marshaller embedded here), an optional `zdfsmeta` directory and a list of
temporary directories.  Files that the code addresses by a raw path that is
not one of those slots (the `image_ref` lookup) live in a separate
path-indexed map.  I/O failures are injected through two oracles carried in
the state: `statErrs` (paths whose `os.Stat` fails with a non-not-exist
error) and `failWrites` (paths whose creation/write/rename fails).
Mutating operations additionally emit an event trace so that ordering,
no-migration and locking properties can be stated.
-/

namespace Zdfs

/-- Association-list lookup with decidable string keys. -/
def getA {α : Type} : List (String × α) → String → Option α
  | [], _ => none
  | (k', v) :: t, k => if k' = k then some v else getA t k

/-- Association-list insert/replace keeping first-occurrence position. -/
def putAssoc {α : Type} : List (String × α) → String → α → List (String × α)
  | [], k, v => [(k, v)]
  | (k', v') :: t, k, v =>
    if k' = k then (k, v) :: t else (k', v') :: putAssoc t k v

/-- Association-list removal of a key. -/
def delAssoc {α : Type} : List (String × α) → String → List (String × α)
  | [], _ => []
  | (k', v') :: t, k => if k' = k then delAssoc t k else (k', v') :: delAssoc t k

/-- Structural split of a character list at a separator character. -/
def splitCharAux (c : Char) : List Char → List Char → List (List Char)
  | [], acc => [acc.reverse]
  | x :: xs, acc =>
    if x = c then acc.reverse :: splitCharAux c xs []
    else splitCharAux c xs (x :: acc)

/-- Split a string at every occurrence of a separator character
(`strings.Split` for a one-character separator). -/
def splitChar (s : String) (c : Char) : List String :=
  (splitCharAux c s.data []).map String.mk

/-- Join strings with a separator character (`strings.Join`). -/
def intercalateChar (c : Char) : List String → String
  | [] => ""
  | [x] => x
  | x :: y :: xs => x ++ String.singleton c ++ intercalateChar c (y :: xs)

/-- Prefix test (`strings.HasPrefix`). -/
def strStartsWith (s pre : String) : Bool := pre.data.isPrefixOf s.data

/-- One step of the Go `path.Clean` element scan. -/
def cleanStep (rooted : Bool) (st : List String) (c : String) : List String :=
  if c = "" ∨ c = "." then st
  else if c = ".." then
    if st = [] then (if rooted then [] else [".."])
    else if st.getLast? = some ".." then st ++ [".."]
    else st.dropLast
  else st ++ [c]

/-- Embedding of Go `path.Clean` (lexical path cleaning). -/
def goPathClean (p : String) : String :=
  if p = "" then "." else
  let rooted := strStartsWith p "/"
  let st := (splitChar p '/').foldl (cleanStep rooted) []
  if st = [] then (if rooted then "/" else ".")
  else (if rooted then "/" else "") ++ intercalateChar '/' st

/-- Embedding of Go `path.Join`: drop empty elements, join with a slash,
then clean; the empty result stands for Go returning the empty string. -/
def goPathJoin (elems : List String) : String :=
  let es := elems.filter (fun e => e ≠ "")
  if es = [] then "" else goPathClean (intercalateChar '/' es)

/-- Embedding of `strings.Trim(s, " \n")` as used by `getTrimStringFromFile`. -/
def goTrimSpaceNL (s : String) : String :=
  let inSet := fun c => c = ' ' ∨ c = '\n'
  String.mk (((s.data.dropWhile inSet).reverse.dropWhile inSet).reverse)

/-- Embedding of `strconv.ParseUint(s, 10, 64)` returning the Go value and
a success flag: syntax errors yield value 0, range errors yield the maximal
64-bit value, mirroring Go's returned pair. -/
def goParseUint64 (s : String) : Nat × Bool :=
  if s = "" then (0, false)
  else if s.data.all (fun c => c.isDigit) then
    let n := s.data.foldl (fun acc c => acc * 10 + (c.toNat - 48)) 0
    if n < 2 ^ 64 then (n, true) else (2 ^ 64 - 1, false)
  else (0, false)

/-- Go conversion `int64(u)` for a `uint64` value `u` held as a `Nat`. -/
def int64OfUint64 (n : Nat) : Int :=
  if n < 2 ^ 63 then (n : Int) else (n : Int) - 2 ^ 64

/-- Embedding of `strings.Cut(s, sep)` for a single-character separator. -/
def strCut (s : String) (c : Char) : Option (String × String) :=
  match s.data.findIdx? (fun ch => ch = c) with
  | none => none
  | some i => some (String.mk (s.data.take i), String.mk (s.data.drop (i + 1)))

/-- Split a string at its last slash: `(before, after)`; `before` is `none`
when the string holds no slash (Go `strings.LastIndex` returning -1). -/
def splitAtLastSlash (url : String) : Option String × String :=
  let rev := url.data.reverse
  match rev.findIdx? (fun c => c = '/') with
  | none => (none, url)
  | some k => (some (String.mk ((rev.drop (k + 1)).reverse)), String.mk ((rev.take k).reverse))

/-- Lowercasing of every character, embedding `strings.ToLower` for the
ASCII inputs the reference grammar admits. -/
def strToLower (s : String) : String := String.mk (s.data.map Char.toLower)

def containsChar (s : String) (c : Char) : Bool := s.data.contains c

/-! Data model: descriptor structures from
`github.com/containerd/accelerated-container-image/pkg/types`
(`OverlayBDBSConfig` and `OverlayBDBSConfigLower`), kept as parsed values;
JSON marshalling is deterministic so structural equality of two stored
descriptors coincides with byte equality of the stored files. -/

/-- One entry of the descriptor's lowers list.  Go zero values stand for
absent JSON fields: base-layer entries use only `file`, chained entries use
`digest`, `size` and `dir`. -/
structure OverlayBDBSConfigLower where
  file : String := ""
  digest : String := ""
  size : Int := 0
  dir : String := ""
deriving DecidableEq

/-- The per-layer backing-store descriptor (`config.v1.json`). -/
structure OverlayBDBSConfig where
  repoBlobURL : String
  lowers : List OverlayBDBSConfigLower
  resultFile : String
  recordTracePath : String
deriving DecidableEq

/-- On-disk content of one layer directory.  `fsFiles` are the marker files
under `dir/fs`, `blockFiles` the marker files under `dir/block` (the
descriptor itself is held separately in `config`), `zdfsmeta` is `none`
while the `dir/zdfsmeta` directory is absent, and `temps` are temporary
directories living directly under `dir`. -/
structure Layer where
  fsFiles : List (String × String)
  blockFiles : List (String × String)
  config : Option OverlayBDBSConfig
  zdfsmeta : Option (List (String × String))
  temps : List (String × List (String × String))
deriving DecidableEq

def emptyLayer : Layer :=
  { fsFiles := [], blockFiles := [], config := none, zdfsmeta := none, temps := [] }

/-- Filesystem state.  `layers` maps a layer directory path to its content;
`raw` holds files addressed by a full path outside the per-layer slots (the
`image_ref` lookup); `statErrs` lists paths whose `os.Stat` fails with an
error distinct from not-exists; `failWrites` lists paths whose
write/creation/rename fails. -/
structure FS where
  layers : List (String × Layer)
  raw : List (String × String)
  statErrs : List String
  failWrites : List String
deriving DecidableEq

def getLayer (fs : FS) (d : String) : Layer :=
  match getA fs.layers d with
  | some l => l
  | none => emptyLayer

def setLayer (fs : FS) (d : String) (l : Layer) : FS :=
  { fs with layers := putAssoc fs.layers d l }

/-- Events emitted by the embedded mutating operations.  The lock events
exist because the source file declares `pouchDirLock sync.Mutex`; an
operation that locked or unlocked it would emit them. -/
inductive Ev where
  | call (dir parent : String)
  | mkTempDir (dir tmp : String)
  | writeFileEv (p : String)
  | renameEv (src dst : String)
  | writeConfigEv (p : String)
  | lockAcquire
  | lockRelease
deriving DecidableEq

/-- Result of one embedded stateful operation returning `error` in Go. -/
structure StepRes where
  fs : FS
  evs : List Ev
  err : Option String
deriving DecidableEq

/-! Constants from `zdfs.go`. -/

def zdfsMetaDir : String := "zdfsmeta"
def iNewFormat : String := ".aaaaaaaaaaaaaaaa.lsmt"
def zdfsChecksumFile : String := ".checksum_file"
def zdfsOssurlFile : String := ".oss_url"
def zdfsOssDataSizeFile : String := ".data_size"
def zdfsOssTypeFile : String := ".type"
def zdfsTrace : String := ".trace"
def overlaybdBaseLayer : String := "/opt/overlaybd/baselayers/.commit"

/-- Path of the descriptor: `filepath.Join(dir, "block", "config.v1.json")`. -/
def overlaybdConfPath (dir : String) : String :=
  goPathJoin [dir, "block", "config.v1.json"]

/-- Path of the diagnostic log: `filepath.Join(dir, zdfsMetaDir, "init-debug.log")`. -/
def overlaybdInitDebuglogPath (dir : String) : String :=
  goPathJoin [dir, zdfsMetaDir, "init-debug.log"]

/-- Marker-file names checked by `hasOverlaybdBlobRef`. -/
def blobRefNames : List String :=
  [iNewFormat, zdfsChecksumFile, zdfsOssurlFile, zdfsOssDataSizeFile, zdfsOssTypeFile]

/-- Marker-file names copied by `copyPulledZdfsMetaFiles` (the blob-ref
set plus the optional trace file). -/
def metaCopyNames : List String :=
  [iNewFormat, zdfsChecksumFile, zdfsOssurlFile, zdfsOssDataSizeFile, zdfsOssTypeFile, zdfsTrace]

/-! Embeddings of the functions of `zdfs.go`, bottom up. -/

/-- Loop of `hasOverlaybdBlobRef`: `pathExists` on each marker file under
`dir/fs`; a stat error aborts with an error, a missing file yields false. -/
def checkBlobRefFiles (fs : FS) (dir : String) : List String → Bool × Option String
  | [] => (true, none)
  | name :: rest =>
    if fs.statErrs.contains (goPathJoin [dir, "fs", name]) then
      (false, some "statErr")
    else if (getA (getLayer fs dir).fsFiles name).isNone then
      (false, none)
    else
      checkBlobRefFiles fs dir rest

/-- Embedding of `hasOverlaybdBlobRef(path.Join(dir, "fs"))`; the argument
is the layer directory, the `fs` subpath being resolved structurally. -/
def hasOverlaybdBlobRef (fs : FS) (dir : String) : Bool × Option String :=
  checkBlobRefFiles fs dir blobRefNames

/-- Embedding of `isOverlaybdLayer`.  The first `pathExists` discards its
error (`exists, _ :=`), so a stat error on the descriptor path reads as
absent; a blob-ref inspection error is returned as `(false, err)`. -/
def isOverlaybdLayer (fs : FS) (dir : String) : Bool × Option String :=
  let ex :=
    if fs.statErrs.contains (overlaybdConfPath dir) then false
    else (getLayer fs dir).config.isSome
  if ex then (true, none)
  else
    match hasOverlaybdBlobRef fs dir with
    | (_, some e) => (false, some ("LSMD ERROR failed to IsZdfsLayerInApplyDiff: " ++ e))
    | (b, none) => (b, none)

/-- Embedding of `getTrimStringFromFile` reading a named file from a
directory's file map (`ioutil.ReadFile` plus `strings.Trim(data, " \n")`). -/
def getTrimStringFromFile (files : List (String × String)) (name : String) :
    Except String String :=
  match getA files name with
  | none => Except.error "readErr"
  | some d => Except.ok (goTrimSpaceNL d)

/-- Embedding of `GetBlobRepoDigest` on the file map of the directory it is
given (the call site passes `dir/block`).  Splits the trimmed `.oss_url`
content at the last slash; the suffix must begin with `sha256`.  A URL with
no slash whose whole text begins with `sha256` makes the Go code slice
`url[0:-1]`, a runtime panic, modelled as an error. -/
def GetBlobRepoDigest (files : List (String × String)) :
    Except String (String × String) :=
  match getTrimStringFromFile files zdfsOssurlFile with
  | Except.error e => Except.error e
  | Except.ok url =>
    let (before, suffix) := splitAtLastSlash url
    if strStartsWith suffix "sha256" then
      match before with
      | some b => Except.ok (b, suffix)
      | none => Except.error "panic: slice bounds out of range"
    else Except.error ("cannot parse sha256 from url " ++ url)

/-- Embedding of `GetBlobSize` on the file map of the directory it is given
(the call site passes `dir/block`).  Returns Go's `(uint64, error)` pair:
the value component is 0 for a missing or non-numeric size file. -/
def GetBlobSize (files : List (String × String)) : Nat × Option String :=
  match getTrimStringFromFile files zdfsOssDataSizeFile with
  | Except.error e => (0, some e)
  | Except.ok s =>
    let (v, ok) := goParseUint64 s
    (v, if ok then none else some ("parse uint failed: " ++ s))

/-! Embedding of the behaviour of `github.com/distribution/reference`
v0.6.0 (the dependency pinned in go.mod) as exercised by
`constructImageBlobURL`: `ParseNamed` runs `ParseNormalizedNamed` and then
rejects any input that differs from the normalized canonical string;
`Domain`, `TrimNamed` and `Path` project out the host and the repository
path with tag and digest stripped.  Component charset validation follows
the library's grammar (`[a-z0-9]+((.|_|__|-+)[a-z0-9]+)*` path components,
host components of alphanumerics and dashes joined by dots with an
optional numeric port, `[\w][\w.-]*` tags, `algo:hex` digests). -/

def defaultDomain : String := "docker.io"
def legacyDefaultDomain : String := "index.docker.io"

/-- Embedding of `splitDockerDomain`: the text before the first slash is
the domain when it is `localhost`, holds a dot or a colon, or is not all
lowercase; otherwise the default domain applies and single-component names
get the `library/` prefix. -/
def splitDockerDomain (name : String) : String × String :=
  let dr :=
    match strCut name '/' with
    | none => (defaultDomain, "library/" ++ name)
    | some (maybeDomain, maybeRem) =>
      if maybeDomain = "localhost" ∨ containsChar maybeDomain '.' ∨
          containsChar maybeDomain ':' ∨ strToLower maybeDomain ≠ maybeDomain then
        (maybeDomain, maybeRem)
      else (defaultDomain, name)
  let dom := if dr.1 = legacyDefaultDomain then defaultDomain else dr.1
  let rem :=
    if dom = defaultDomain ∧ ¬ containsChar dr.2 '/' then "library/" ++ dr.2
    else dr.2
  (dom, rem)

/-- Parsed named reference: host, repository path, optional tag and digest
(empty strings when absent). -/
structure NamedRef where
  domain : String
  path : String
  tag : String
  dgst : String
deriving DecidableEq

/-- The canonical string of a named reference (`Named.String()`). -/
def namedString (r : NamedRef) : String :=
  r.domain ++ "/" ++ r.path ++ (if r.tag = "" then "" else ":" ++ r.tag) ++
    (if r.dgst = "" then "" else "@" ++ r.dgst)

def isAlnumLower (c : Char) : Bool := c.isDigit ∨ (c.isAlpha ∧ c.isLower)

/-- Automaton step for one path component of the reference grammar
`[a-z0-9]+((.|_|__|-+)[a-z0-9]+)*`; state 1 accepts. -/
def compStep (st : Nat) (c : Char) : Nat :=
  match st with
  | 0 => if isAlnumLower c then 1 else 6
  | 1 => if isAlnumLower c then 1
         else if c = '.' then 2 else if c = '_' then 3 else if c = '-' then 5 else 6
  | 2 => if isAlnumLower c then 1 else 6
  | 3 => if isAlnumLower c then 1 else if c = '_' then 4 else 6
  | 4 => if isAlnumLower c then 1 else 6
  | 5 => if isAlnumLower c then 1 else if c = '-' then 5 else 6
  | _ => 6

def validComp (s : String) : Bool := s.data.foldl compStep 0 = 1

def validPathComponents (p : String) : Bool :=
  (splitChar p '/').all validComp

def isHostChar (c : Char) : Bool := c.isAlphanum ∨ c = '-'

def validHostComp (s : String) : Bool :=
  s ≠ "" ∧ s.data.all isHostChar ∧ s.data.head? ≠ some '-' ∧ s.data.getLast? ≠ some '-'

/-- Host validation: dot-separated components of alphanumerics and dashes,
optionally followed by a colon and a numeric port. -/
def validDomain (d : String) : Bool :=
  let hp :=
    match strCut d ':' with
    | none => (d, "")
    | some (h, p) => (h, p)
  (splitChar hp.1 '.').all validHostComp ∧
    (hp.2 = "" → ¬ containsChar d ':') ∧
    (hp.2 ≠ "" → hp.2.data.all Char.isDigit)

def isTagChar (c : Char) : Bool := c.isAlphanum ∨ c = '_' ∨ c = '.' ∨ c = '-'

def validTag (t : String) : Bool :=
  t ≠ "" ∧ t.length ≤ 128 ∧ t.data.all isTagChar ∧
    (t.data.head? ≠ some '.' ∧ t.data.head? ≠ some '-')

def validDigest (d : String) : Bool :=
  match strCut d ':' with
  | none => false
  | some (algo, hex) =>
    algo ≠ "" ∧ algo.data.all isAlnumLower ∧ 32 ≤ hex.length ∧
      hex.data.all (fun c => c.isDigit ∨ ('a' ≤ c ∧ c ≤ 'f'))

/-- Split an optional tag off the remainder at its last colon; a colon
followed by a further slash does not match the reference grammar. -/
def splitTag (core : String) : Except String (String × String) :=
  let rev := core.data.reverse
  match rev.findIdx? (fun c => c = ':') with
  | none => Except.ok (core, "")
  | some k =>
    if (rev.take k).contains '/' then Except.error "invalid reference format"
    else Except.ok (String.mk ((rev.drop (k + 1)).reverse), String.mk ((rev.take k).reverse))

/-- Embedding of `reference.ParseNamed`: normalize, validate, and reject
any input whose canonical string differs from the input. -/
def parseNamed (s : String) : Except String NamedRef :=
  if s.length = 64 ∧ s.data.all (fun c => c.isDigit ∨ ('a' ≤ c ∧ c ≤ 'f')) then
    Except.error "cannot specify 64-byte hexadecimal strings"
  else
    let dr := splitDockerDomain s
    let remote :=
      match strCut dr.2 ':' with
      | some (before, _) => before
      | none => dr.2
    if strToLower remote ≠ remote then
      Except.error "repository name must be lowercase"
    else
      let cd :=
        match strCut dr.2 '@' with
        | some (b, a) => (b, a)
        | none => (dr.2, "")
      match splitTag cd.1 with
      | Except.error e => Except.error e
      | Except.ok (pathPart, tag) =>
        if ¬ validDomain dr.1 then Except.error "invalid reference format"
        else if ¬ validPathComponents pathPart then Except.error "invalid reference format"
        else if tag ≠ "" ∧ ¬ validTag tag then Except.error "invalid reference format"
        else if cd.2 ≠ "" ∧ ¬ validDigest cd.2 then Except.error "invalid reference format"
        else
          let named : NamedRef :=
            { domain := dr.1, path := pathPart, tag := tag, dgst := cd.2 }
          if namedString named ≠ s then
            Except.error "repository name must be canonical"
          else Except.ok named

/-- Embedding of `constructImageBlobURL`, returning Go's `(string, error)`
pair: the empty string accompanies an error. -/
def constructImageBlobURL (ref : String) : String × Option String :=
  match parseNamed ref with
  | Except.error e => ("", some ("invalid repo url " ++ ref ++ ": " ++ e))
  | Except.ok r =>
    ("https://" ++ goPathJoin [r.domain, "v2", r.path] ++ "/blobs", none)

/-- Embedding of `loadBackingStoreConfig`: reading and unmarshalling the
descriptor at `overlaybdConfPath dir`.  The model stores descriptors as
parsed values, so the only failure is a missing file; every stored
descriptor was produced by the marshaller below and hence parses. -/
def loadBackingStoreConfig (fs : FS) (dir : String) : Except String OverlayBDBSConfig :=
  match (getLayer fs dir).config with
  | none => Except.error ("failed to read config of snapshot " ++ dir)
  | some c => Except.ok c

/-- Embedding of `atomicWriteOverlaybdTargetConfig`
(`continuity.AtomicWriteFile` on the descriptor path): on failure the old
content stays; on success the descriptor is replaced whole. -/
def atomicWriteOverlaybdTargetConfig (fs : FS) (dir : String)
    (configJSON : OverlayBDBSConfig) : StepRes :=
  let confPath := overlaybdConfPath dir
  if fs.failWrites.contains confPath then
    { fs := fs, evs := [], err := some ("failed to commit the overlaybd config on " ++ confPath) }
  else
    { fs := setLayer fs dir { getLayer fs dir with config := some configJSON }
      evs := [Ev.writeConfigEv confPath]
      err := none }

/-- Embedding of `updateSpec`: load the descriptor, return at once when the
stored trace path already equals the requested one, otherwise rewrite only
that field and re-persist atomically. -/
def updateSpec (fs : FS) (dir recordTracePath : String) : StepRes :=
  match loadBackingStoreConfig fs dir with
  | Except.error e => { fs := fs, evs := [], err := some e }
  | Except.ok bsConfig =>
    if recordTracePath = bsConfig.recordTracePath then
      { fs := fs, evs := [], err := none }
    else
      atomicWriteOverlaybdTargetConfig fs dir
        { bsConfig with recordTracePath := recordTracePath }

/-- The base-layer lowers entry `{File: overlaybdBaseLayer}`. -/
def baseLower : OverlayBDBSConfigLower := { file := overlaybdBaseLayer }

/-- The layer's own lowers entry `{Digest, Size, Dir: path.Join(dir, "block")}`. -/
def ownLower (dir digest : String) (size : Nat) : OverlayBDBSConfigLower :=
  { digest := digest, size := int64OfUint64 size, dir := goPathJoin [dir, "block"] }

/-- Embedding of `constructSpec`: an empty parent yields the single
constant base-layer lower, otherwise the parent's descriptor is loaded and
its lowers inherited verbatim (and its repo URL when the caller passed
none); the layer's own entry is appended and the descriptor persisted. -/
def constructSpec (fs : FS) (dir parent repo digest : String) (size : Nat)
    (recordTracePath : String) : StepRes :=
  let start : OverlayBDBSConfig :=
    { repoBlobURL := repo, lowers := [], resultFile := overlaybdInitDebuglogPath dir
      recordTracePath := "" }
  let built : Except String OverlayBDBSConfig :=
    if parent = "" then
      Except.ok { start with lowers := [baseLower] }
    else
      match loadBackingStoreConfig fs parent with
      | Except.error e => Except.error e
      | Except.ok parentConf =>
        Except.ok { start with
          repoBlobURL := if repo = "" then parentConf.repoBlobURL else repo
          lowers := parentConf.lowers }
  match built with
  | Except.error e => { fs := fs, evs := [], err := some e }
  | Except.ok cfg =>
    atomicWriteOverlaybdTargetConfig fs dir
      { cfg with recordTracePath := recordTracePath
                 lowers := cfg.lowers ++ [ownLower dir digest size] }

/-- Embedding of the `makeConfig` closure of `PrepareOverlayBDSpec`.  Reads
repo and digest from `dir/block`; when a file exists at
`path.Join(dir, path.Join(dir, "image_ref"))` (note the doubled `dir`, as
in the source) the repo URL is replaced by `constructImageBlobURL` of its
content with the error discarded; the blob size error is discarded; then
`constructSpec` runs with an empty trace path. -/
def makeConfig (fs : FS) (dir parent : String) : StepRes :=
  let l := getLayer fs dir
  match GetBlobRepoDigest l.blockFiles with
  | Except.error e => { fs := fs, evs := [], err := some e }
  | Except.ok rd =>
    let refPath := goPathJoin [dir, goPathJoin [dir, "image_ref"]]
    let b := if fs.statErrs.contains refPath then false else (getA fs.raw refPath).isSome
    let repo :=
      if b then
        let img := (getA fs.raw refPath).getD ""
        (constructImageBlobURL img).1
      else rd.1
    let size := (GetBlobSize l.blockFiles).1
    constructSpec fs dir parent repo rd.2 size ""

/-- Destination of a `copyPulledZdfsMetaFiles` call: the temporary
directory `tmp` inside layer `d`, or the `block` subdirectory of layer `d`. -/
inductive CopyDst where
  | toTemp (d tmp : String)
  | toBlock (d : String)

/-- Full path of one destination file, as the Go code builds it. -/
def dstPathOf : CopyDst → String → String
  | CopyDst.toTemp d t, name => goPathJoin [d, t, name]
  | CopyDst.toBlock d, name => goPathJoin [d, "block", name]

/-- Apply one completed file write to the destination slot. -/
def writeTo (fs : FS) (dst : CopyDst) (name content : String) : FS :=
  match dst with
  | CopyDst.toTemp d t =>
    let l := getLayer fs d
    setLayer fs d
      { l with temps := putAssoc l.temps t (putAssoc ((getA l.temps t).getD []) name content) }
  | CopyDst.toBlock d =>
    let l := getLayer fs d
    setLayer fs d { l with blockFiles := putAssoc l.blockFiles name content }

/-- Loop body of `copyPulledZdfsMetaFiles` over the fixed name list.  The
source is `srcLayer/fs`.  `os.Stat` errors other than not-exists fall
through to `os.ReadFile`, which fails; a missing file is skipped; a failing
write aborts the loop. -/
def copyLoop (srcLayer : String) (dst : CopyDst) : StepRes → List String → StepRes
  | acc, [] => acc
  | acc, name :: rest =>
    match acc.err with
    | some _ => acc
    | none =>
      let srcPath := goPathJoin [srcLayer, "fs", name]
      if acc.fs.statErrs.contains srcPath then
        { acc with err := some ("LSMD ERROR ReadFile " ++ srcPath) }
      else
        match getA (getLayer acc.fs srcLayer).fsFiles name with
        | none => copyLoop srcLayer dst acc rest
        | some content =>
          let dstPath := dstPathOf dst name
          if acc.fs.failWrites.contains dstPath then
            { acc with err := some ("LSMD ERROR WriteFile " ++ dstPath) }
          else
            copyLoop srcLayer dst
              { fs := writeTo acc.fs dst name content
                evs := acc.evs ++ [Ev.writeFileEv dstPath]
                err := none } rest

/-- Embedding of `copyPulledZdfsMetaFiles(path.Join(dir, "fs"), dstDir)`;
the source argument is the layer directory, the destination one of the two
slots the orchestrator passes. -/
def copyPulledZdfsMetaFiles (fs : FS) (srcLayer : String) (dst : CopyDst) : StepRes :=
  copyLoop srcLayer dst { fs := fs, evs := [], err := none } metaCopyNames

/-- Name of the temporary directory `os.MkdirTemp(dir,
"temp_for_prepare_dadimeta")` creates; the random suffix is modelled by a
fixed one. -/
def tmpDirName : String := "temp_for_prepare_dadimeta42"

/-- The new-format check of `doDir`: `b, _ = pathExists(path.Join(dir,
"block", "config.v1.json"))` with the error discarded, so a stat error
reads as absent. -/
def newFmtCheck (fs : FS) (dir : String) : Bool :=
  if fs.statErrs.contains (goPathJoin [dir, "block", "config.v1.json"]) then false
  else (getLayer fs dir).config.isSome

/-- Embedding of the `doDir` closure of `PrepareOverlayBDSpec`.  Emits a
`call` event on entry, then: when `dir/zdfsmeta` exists, refresh the trace
path if the descriptor exists, otherwise synthesize it; when the layer
exposes the new-format descriptor (existence check with the error
discarded), no-op; otherwise migrate (temp dir, two copies, rename) and
synthesize the descriptor. -/
def doDir (fs : FS) (dir parent : String) : StepRes :=
  let callEv := Ev.call dir parent
  let l := getLayer fs dir
  let dstDir := goPathJoin [dir, zdfsMetaDir]
  if fs.statErrs.contains dstDir then
    { fs := fs, evs := [callEv], err := some ("LSMD ERROR PathExists " ++ dstDir) }
  else if l.zdfsmeta.isSome then
    if fs.statErrs.contains (overlaybdConfPath dir) then
      { fs := fs, evs := [callEv], err := some ("LSMD ERROR PathExists " ++ overlaybdConfPath dir) }
    else if l.config.isSome then
      let r := updateSpec fs dir ""
      { r with evs := callEv :: r.evs }
    else
      let r := makeConfig fs dir parent
      { r with evs := callEv :: r.evs }
  else
    if newFmtCheck fs dir then { fs := fs, evs := [callEv], err := none }
    else
      let tmpPath := goPathJoin [dir, tmpDirName]
      if fs.failWrites.contains tmpPath then
        { fs := fs, evs := [callEv], err := some ("LSMD ERROR os.MkdirTemp " ++ tmpPath) }
      else
        let fs1 := setLayer fs dir { l with temps := putAssoc l.temps tmpDirName [] }
        let r2 := copyPulledZdfsMetaFiles fs1 dir (CopyDst.toTemp dir tmpDirName)
        match r2.err with
        | some e =>
          { fs := r2.fs, evs := callEv :: Ev.mkTempDir dir tmpDirName :: r2.evs, err := some e }
        | none =>
          let r3 := copyPulledZdfsMetaFiles r2.fs dir (CopyDst.toBlock dir)
          match r3.err with
          | some e =>
            { fs := r3.fs
              evs := callEv :: Ev.mkTempDir dir tmpDirName :: (r2.evs ++ r3.evs)
              err := some e }
          | none =>
            if r3.fs.failWrites.contains dstDir then
              { fs := r3.fs
                evs := callEv :: Ev.mkTempDir dir tmpDirName :: (r2.evs ++ r3.evs)
                err := some ("rename failed: " ++ dstDir) }
            else
              let l3 := getLayer r3.fs dir
              let fs4 := setLayer r3.fs dir
                { l3 with zdfsmeta := some ((getA l3.temps tmpDirName).getD [])
                          temps := delAssoc l3.temps tmpDirName }
              let r5 := makeConfig fs4 dir parent
              { fs := r5.fs
                evs := callEv :: Ev.mkTempDir dir tmpDirName ::
                  (r2.evs ++ r3.evs ++ [Ev.renameEv tmpPath dstDir] ++ r5.evs)
                err := r5.err }

/-- Result of the ancestor walk: final state, events, error and the parent
value left for the next `doDir` call. -/
structure WalkRes where
  fs : FS
  evs : List Ev
  err : Option String
  parent : String
deriving DecidableEq

/-- The ancestor loop of `PrepareOverlayBDSpec`: process each directory in
turn, threading the previous directory as parent, stopping at the first
error. -/
def walk (fs : FS) : List String → String → WalkRes
  | [], parent => { fs := fs, evs := [], err := none, parent := parent }
  | d :: rest, parent =>
    let r := doDir fs d parent
    match r.err with
    | some e => { fs := r.fs, evs := r.evs, err := some e, parent := parent }
    | none =>
      let w := walk r.fs rest d
      { fs := w.fs, evs := r.evs ++ w.evs, err := w.err, parent := w.parent }

/-- The index expression of the Go loop `for m := 0; m < num; m++ { dir :=
lowers[num-m-1] ... }` as a list of directories. -/
def dirsOrder (lowers : List String) : List String :=
  (List.range lowers.length).map (fun m => lowers.getD (lowers.length - m - 1) "")

/-- Result of `PrepareOverlayBDSpec`: the `(bool, error)` pair, the final
state and the event trace. -/
structure PrepRes where
  handled : Bool
  err : Option String
  fs : FS
  evs : List Ev
deriving DecidableEq

/-- Embedding of `PrepareOverlayBDSpec`.  The snapshot lookup is an
external collaborator, so the parent ID list and the ID-to-path resolver
are parameters; `lowers` is the resolved list in the order `s.ParentIDs`
carries (immediate parent first).  Note the entry check mirrors the source:
`if b, err := isOverlaybdLayer(dir); !b { return false, nil } else if err
!= nil { ... }`, so a probe error with `b == false` returns `(false, nil)`. -/
def PrepareOverlayBDSpec (fs : FS) (dir : String) (parentIDs : List String)
    (snPath : String → String) (id : String) : PrepRes :=
  let probe := isOverlaybdLayer fs dir
  if ¬ probe.1 then { handled := false, err := none, fs := fs, evs := [] }
  else if probe.2.isSome then { handled := false, err := probe.2, fs := fs, evs := [] }
  else
    let lowers := parentIDs.map snPath
    let w := walk fs (dirsOrder lowers) ""
    match w.err with
    | some e => { handled := true, err := some e, fs := w.fs, evs := w.evs }
    | none =>
      let r := doDir w.fs (snPath id) w.parent
      { handled := true, err := r.err, fs := r.fs, evs := w.evs ++ r.evs }

/-! Helper definitions used to state the claims. -/

/-- True exactly on the `call` events marking `doDir` entries. -/
def isCallEv : Ev → Bool
  | Ev.call _ _ => true
  | _ => false

/-- True exactly on the mutex events. -/
def isLockEv : Ev → Bool
  | Ev.lockAcquire => true
  | Ev.lockRelease => true
  | _ => false

/-- Events that are neither `doDir`-entry markers nor mutex events. -/
def benignEv (e : Ev) : Bool := !(isCallEv e) && !(isLockEv e)

/-- The `doDir` invocation sequence on directory list `ds` when the first
call receives `p0` as parent and each later call the preceding directory. -/
def callsFrom (p0 : String) (ds : List String) : List Ev :=
  (ds.zip (p0 :: ds)).map (fun dp => Ev.call dp.1 dp.2)

/-- The invocation sequence the spec requires: first parent is empty. -/
def expectedCalls (ds : List String) : List Ev := callsFrom "" ds

/-- Folding a copy of the named files over an initial destination content:
the files present in `files` are written in order, the rest skipped. -/
def copyFold (files : List (String × String)) (ns : List String)
    (t0 : List (String × String)) : List (String × String) :=
  ns.foldl (fun ts n =>
    match getA files n with
    | some c => putAssoc ts n c
    | none => ts) t0

/-- The complete migrated bundle of a layer: every `metaCopyNames` file
present under its `fs` subdirectory. -/
def bundleOf (l : Layer) : List (String × String) :=
  copyFold l.fsFiles metaCopyNames []

/-- A layer directory in the state a successful preparation leaves it:
no stat errors on the paths `doDir` checks, and either migrated metadata
plus a descriptor with an empty stored trace path, or the new format
(descriptor without a metadata directory). -/
def preparedLayer (fs : FS) (d : String) : Bool :=
  !(fs.statErrs.contains (goPathJoin [d, zdfsMetaDir])) &&
  !(fs.statErrs.contains (overlaybdConfPath d)) &&
  (match (getLayer fs d).zdfsmeta, (getLayer fs d).config with
   | some _, some c => c.recordTracePath = ""
   | none, some _ => true
   | _, _ => false)

/-- Last element of a list, with a default for the empty list. -/
def lastD (l : List String) (d : String) : String :=
  match l with
  | [] => d
  | x :: xs => lastD xs x

/-! Concrete fixture states used by the witness and counterexample
theorems below. -/

/-- A complete legacy marker bundle (without the optional trace file). -/
def wBundle : List (String × String) :=
  [(iNewFormat, "x"), (zdfsChecksumFile, "c"),
   (zdfsOssurlFile, "https://h/v2/r/blobs/sha256:ab"),
   (zdfsOssDataSizeFile, "7"), (zdfsOssTypeFile, "t")]

/-- A legacy layer: full bundle under `fs`, nothing migrated yet. -/
def wLegacy : Layer :=
  { fsFiles := wBundle, blockFiles := [], config := none, zdfsmeta := none, temps := [] }

/-- A stored descriptor with an empty trace path. -/
def wCfg : OverlayBDBSConfig :=
  { repoBlobURL := "u", lowers := [baseLower]
    resultFile := "/L/zdfsmeta/init-debug.log", recordTracePath := "" }

/-- The empty filesystem. -/
def wFS0 : FS := { layers := [], raw := [], statErrs := [], failWrites := [] }

/-- A filesystem with a single already-configured layer `/L`. -/
def wFSCfg : FS :=
  { layers := [("/L", { emptyLayer with config := some wCfg })]
    raw := [], statErrs := [], failWrites := [] }

/-- A prepared layer as a successful run leaves it: migrated metadata and a
descriptor whose trace path is empty. -/
def wPrepared : Layer :=
  { fsFiles := wBundle, blockFiles := wBundle, config := some wCfg
    zdfsmeta := some wBundle, temps := [] }

/-- A two-ancestor prepared chain plus prepared active layer. -/
def wFSChain : FS :=
  { layers := [("/a0", wPrepared), ("/a1", wPrepared), ("/act", wPrepared)]
    raw := [], statErrs := [], failWrites := [] }

/-- Resolver used by the walk witnesses. -/
def wSnPath : String → String := fun s => "/" ++ s

/-- A legacy layer whose block-directory copy of the checksum file fails:
the migration aborts between the two block-file writes. -/
def wFSCrash : FS :=
  { layers := [("/L", wLegacy)], raw := [], statErrs := []
    failWrites := ["/L/block/.checksum_file"] }

/-- A filesystem on which the probe's inspection of the first marker file
fails with an I/O error distinct from not-exists. -/
def wFSStatErr : FS :=
  { layers := [("/L", wLegacy)], raw := []
    statErrs := ["/L/fs/.aaaaaaaaaaaaaaaa.lsmt"], failWrites := [] }

/-- A layer holding an image-reference override file directly under its
directory (`/x/y/image_ref`) and a valid legacy bundle under `block`. -/
def wFSRef : FS :=
  { layers := [("/x/y", { wLegacy with blockFiles := wBundle })]
    raw := [("/x/y/image_ref", "registry.example.com/repo/name:tag")]
    statErrs := [], failWrites := [] }

/-- A layer whose block directory has a valid blob URL but no size file. -/
def wFSNoSize : FS :=
  { layers := [("/L", { wLegacy with
      blockFiles := [(zdfsOssurlFile, "https://h/v2/r/blobs/sha256:ab")] })]
    raw := [], statErrs := [], failWrites := [] }

/-! Basic state lemmas. -/

theorem getA_putAssoc_same {α : Type} (l : List (String × α)) (k : String) (v : α) :
    getA (putAssoc l k v) k = some v := by
  induction l with
  | nil => simp [putAssoc, getA]
  | cons hd tl ih =>
    by_cases h : hd.1 = k
    · simp [putAssoc, getA, h]
    · simp [putAssoc, getA, h, ih]

theorem getA_putAssoc_ne {α : Type} (l : List (String × α)) (k k' : String) (v : α)
    (h : k ≠ k') : getA (putAssoc l k v) k' = getA l k' := by
  induction l with
  | nil => simp [putAssoc, getA, h]
  | cons hd tl ih =>
    by_cases h1 : hd.1 = k
    · simp [putAssoc, getA, h1, h]
    · simp [putAssoc, getA, h1, ih]


theorem getLayer_setLayer_same (fs : FS) (d : String) (l : Layer) :
    getLayer (setLayer fs d l) d = l := by
  simp [getLayer, setLayer, getA_putAssoc_same]

theorem getLayer_setLayer_ne (fs : FS) (d d' : String) (l : Layer) (h : d ≠ d') :
    getLayer (setLayer fs d l) d' = getLayer fs d' := by
  simp [getLayer, setLayer, getA_putAssoc_ne _ _ _ _ h]

/-- C1: a descriptor built by `constructSpec` with an empty parent argument
has exactly the constant base-layer reference followed by the layer's own
`{digest, size, dir}` entry; with a non-empty parent it has exactly the
parent's stored lowers, in order, followed by the layer's own entry; hence
for a two-layer chain the child's lowers are
`[base-layer-ref, {D0, S0, base block dir}, {D1, S1, child block dir}]` in
that order. -/
theorem constructSpec_lowers_chain :
    (∀ fs dir repo digest size tr,
      (constructSpec fs dir "" repo digest size tr).err = none →
      ∃ c, (getLayer (constructSpec fs dir "" repo digest size tr).fs dir).config = some c ∧
        c.lowers = [baseLower, ownLower dir digest size]) ∧
    (∀ fs dir parent repo digest size tr pc, parent ≠ "" →
      (getLayer fs parent).config = some pc →
      (constructSpec fs dir parent repo digest size tr).err = none →
      ∃ c, (getLayer (constructSpec fs dir parent repo digest size tr).fs dir).config = some c ∧
        c.lowers = pc.lowers ++ [ownLower dir digest size]) ∧
    (∀ fs b c r0 r1 D0 D1 S0 S1, b ≠ "" →
      (constructSpec fs b "" r0 D0 S0 "").err = none →
      (constructSpec (constructSpec fs b "" r0 D0 S0 "").fs c b r1 D1 S1 "").err = none →
      ∃ cc,
        (getLayer (constructSpec (constructSpec fs b "" r0 D0 S0 "").fs c b r1 D1 S1 "").fs
          c).config = some cc ∧
        cc.lowers = [baseLower, ownLower b D0 S0, ownLower c D1 S1]) := by
  have base : ∀ fs dir repo digest size tr,
      (constructSpec fs dir "" repo digest size tr).err = none →
      ∃ c, (getLayer (constructSpec fs dir "" repo digest size tr).fs dir).config = some c ∧
        c.lowers = [baseLower, ownLower dir digest size] := by
    intro fs dir repo digest size tr h
    by_cases hw : overlaybdConfPath dir ∈ fs.failWrites
    · simp [constructSpec, atomicWriteOverlaybdTargetConfig, hw] at h
    · refine ⟨⟨repo, [baseLower] ++ [ownLower dir digest size],
        overlaybdInitDebuglogPath dir, tr⟩, ?_, by simp⟩
      simp [constructSpec, atomicWriteOverlaybdTargetConfig, hw, getLayer_setLayer_same]
  have step : ∀ fs dir parent repo digest size tr pc, parent ≠ "" →
      (getLayer fs parent).config = some pc →
      (constructSpec fs dir parent repo digest size tr).err = none →
      ∃ c, (getLayer (constructSpec fs dir parent repo digest size tr).fs dir).config = some c ∧
        c.lowers = pc.lowers ++ [ownLower dir digest size] := by
    intro fs dir parent repo digest size tr pc hp hpc h
    by_cases hw : overlaybdConfPath dir ∈ fs.failWrites
    · simp [constructSpec, loadBackingStoreConfig, hpc, atomicWriteOverlaybdTargetConfig,
        hp, hw] at h
    · refine ⟨⟨if repo = "" then pc.repoBlobURL else repo,
        pc.lowers ++ [ownLower dir digest size], overlaybdInitDebuglogPath dir, tr⟩, ?_, by simp⟩
      simp [constructSpec, loadBackingStoreConfig, hpc, atomicWriteOverlaybdTargetConfig,
          hp, hw, getLayer_setLayer_same]
  refine ⟨base, step, ?_⟩
  intro fs b c r0 r1 D0 D1 S0 S1 hb h0 h1
  obtain ⟨c0, hc0, hl0⟩ := base fs b r0 D0 S0 "" h0
  obtain ⟨c1, hc1, hl1⟩ := step _ c b r1 D1 S1 "" c0 hb hc0 h1
  refine ⟨c1, hc1, ?_⟩
  rw [hl1, hl0]
  simp

/-- Witness instantiating C1's chain theorem on a concrete two-layer
filesystem. -/
theorem constructSpec_lowers_chain_witness :
    ∃ cc,
      (getLayer
        (constructSpec
          (constructSpec wFS0 "/b" "" "u0" "sha256:d0" 5 "").fs
          "/c" "/b" "u1" "sha256:d1" 7 "").fs "/c").config = some cc ∧
      cc.lowers = [baseLower, ownLower "/b" "sha256:d0" 5, ownLower "/c" "sha256:d1" 7] :=
  constructSpec_lowers_chain.2.2 wFS0 "/b" "/c" "u0" "u1" "sha256:d0" "sha256:d1"
    5 7 (by decide) (by decide) (by decide)

/-- C10: on a readable descriptor, the update operation with requested
trace path `p` is the identity on the whole state (no write, no event) when
the stored trace path already equals `p`; otherwise it rewrites only the
`recordTracePath` field, preserving `lowers`, `repoBlobURL` and
`resultFile` exactly, the layer's other slots, and every other layer. -/
theorem updateSpec_trace_frame :
    ∀ fs dir p c, loadBackingStoreConfig fs dir = Except.ok c →
      (p = c.recordTracePath → updateSpec fs dir p = { fs := fs, evs := [], err := none }) ∧
      (p ≠ c.recordTracePath → overlaybdConfPath dir ∉ fs.failWrites →
        updateSpec fs dir p =
          { fs := setLayer fs dir
              { getLayer fs dir with config := some { c with recordTracePath := p } }
            evs := [Ev.writeConfigEv (overlaybdConfPath dir)]
            err := none } ∧
        ∀ d, d ≠ dir →
          getLayer (updateSpec fs dir p).fs d = getLayer fs d) := by
  intro fs dir p c hc
  constructor
  · intro hp
    simp [updateSpec, hc, hp]
  · intro hp hw
    have heq : updateSpec fs dir p =
        { fs := setLayer fs dir
            { getLayer fs dir with config := some { c with recordTracePath := p } }
          evs := [Ev.writeConfigEv (overlaybdConfPath dir)]
          err := none } := by
      simp [updateSpec, hc, hp, atomicWriteOverlaybdTargetConfig, hw]
    refine ⟨heq, ?_⟩
    intro d hd
    rw [heq]
    exact getLayer_setLayer_ne _ _ _ _ (fun h => hd h.symm)

/-- Witness instantiating C10's frame theorem on a concrete descriptor, in
both the no-op and the rewrite direction. -/
theorem updateSpec_trace_frame_witness :
    (updateSpec wFSCfg "/L" "" = { fs := wFSCfg, evs := [], err := none }) ∧
    (updateSpec wFSCfg "/L" "/t").fs.layers =
      [("/L", { emptyLayer with config := some { wCfg with recordTracePath := "/t" } })] := by
  constructor
  · exact (updateSpec_trace_frame wFSCfg "/L" "" wCfg (by rfl)).1 (by decide)
  · have h := ((updateSpec_trace_frame wFSCfg "/L" "/t" wCfg
      (by rfl)).2 (by decide) (by decide)).1
    rw [h]
    decide

/-- C9 counterexample: a reference lacking a registry host does not parse
to the default-domain form; `ParseNamed` rejects it as non-canonical, so
`constructImageBlobURL` returns an error for `repo/name:tag` rather than a
default-domain URL. -/
theorem constructImageBlobURL_no_default_domain :
    (constructImageBlobURL "repo/name:tag").2.isSome = true ∧
    parseNamed "repo/name:tag" = Except.error "repository name must be canonical" := by
  constructor
  · decide
  · rfl

/-- C9 (amended): `constructImageBlobURL` maps
`registry.example.com/repo/name:tag` to
`https://registry.example.com/v2/repo/name/blobs`; for every reference the
canonical parser accepts it returns `https://host/v2/repo/blobs` with tag
and digest stripped; a reference lacking a registry host is rejected with a
not-canonical error instead of being normalized; and an invalid reference
is a hard error. -/
theorem constructImageBlobURL_canonical :
    constructImageBlobURL "registry.example.com/repo/name:tag" =
      ("https://registry.example.com/v2/repo/name/blobs", none) ∧
    (∀ ref r, parseNamed ref = Except.ok r →
      constructImageBlobURL ref =
        ("https://" ++ goPathJoin [r.domain, "v2", r.path] ++ "/blobs", none)) ∧
    (constructImageBlobURL "").2.isSome = true := by
  refine ⟨by decide, ?_, by decide⟩
  intro ref r h
  simp [constructImageBlobURL, h]

/-- Witness instantiating C9's amended theorem at a concrete canonical
reference. -/
theorem constructImageBlobURL_canonical_witness :
    constructImageBlobURL "x.co/a" = ("https://" ++ goPathJoin ["x.co", "v2", "a"] ++ "/blobs", none) :=
  constructImageBlobURL_canonical.2.1 "x.co/a" ⟨"x.co", "a", "", ""⟩ (by rfl)

/-- C8 (code bug): the override lookup path is
`path.Join(dir, path.Join(dir, "image_ref"))`, which doubles the layer
directory, so a file named `image_ref` directly under the layer directory
is never consulted: with the override present at `/x/y/image_ref`, the
synthesized descriptor keeps the legacy-bundle URL instead of the URL
constructed from the stored reference. -/
theorem makeConfig_image_ref_ignored :
    goPathJoin ["/x/y", goPathJoin ["/x/y", "image_ref"]] = "/x/y/x/y/image_ref" ∧
    getA wFSRef.raw "/x/y/image_ref" = some "registry.example.com/repo/name:tag" ∧
    (constructImageBlobURL "registry.example.com/repo/name:tag").1 =
      "https://registry.example.com/v2/repo/name/blobs" ∧
    (makeConfig wFSRef "/x/y" "").err = none ∧
    Option.map OverlayBDBSConfig.repoBlobURL
      ((getLayer (makeConfig wFSRef "/x/y" "").fs "/x/y").config) =
      some "https://h/v2/r/blobs" := by
  refine ⟨by decide, by decide, by decide, by decide, by decide⟩

/-- C6 counterexample: with the blob-size marker file absent,
`GetBlobSize` reports an error, yet `makeConfig` succeeds and writes a
descriptor whose own lowers entry carries size 0. -/
theorem makeConfig_size_zero_counterexample :
    (GetBlobSize (getLayer wFSNoSize "/L").blockFiles).2.isSome = true ∧
    (makeConfig wFSNoSize "/L" "").err = none ∧
    Option.map OverlayBDBSConfig.lowers
      ((getLayer (makeConfig wFSNoSize "/L" "").fs "/L").config) =
      some [baseLower, ownLower "/L" "sha256:ab" 0] := by
  refine ⟨by decide, by decide, by decide⟩

/-- C6 (amended): for a layer whose blob-size marker file is missing or
non-numeric, `GetBlobSize` returns an error, but `makeConfig` discards it
and proceeds to synthesize the descriptor with the accompanying value 0
instead of failing (shown here with no override file in the way). -/
theorem makeConfig_discards_size_error :
    ∀ fs d p repo0 dg e,
      GetBlobRepoDigest (getLayer fs d).blockFiles = Except.ok (repo0, dg) →
      GetBlobSize (getLayer fs d).blockFiles = (0, some e) →
      fs.statErrs.contains (goPathJoin [d, goPathJoin [d, "image_ref"]]) = false →
      getA fs.raw (goPathJoin [d, goPathJoin [d, "image_ref"]]) = none →
      makeConfig fs d p = constructSpec fs d p repo0 dg 0 "" := by
  intro fs d p repo0 dg e hrd hsz hst href
  simp [makeConfig, hrd, hsz, hst, href]

/-- Witness instantiating C6's amended theorem at the concrete layer with
no size file. -/
theorem makeConfig_discards_size_error_witness :
    makeConfig wFSNoSize "/L" "" =
      constructSpec wFSNoSize "/L" "" "https://h/v2/r/blobs" "sha256:ab" 0 "" :=
  makeConfig_discards_size_error wFSNoSize "/L" "" "https://h/v2/r/blobs" "sha256:ab"
    "readErr" (by rfl) (by rfl) (by decide) (by rfl)

/-- C5 (code bug): the entry check of `PrepareOverlayBDSpec` tests `!b`
before `err != nil`, and the probe only ever reports an error together with
`b == false`, so a probe I/O error (distinct from not-exists) is swallowed:
the function returns the `(false, nil)` not-applicable outcome instead of
propagating the error. -/
theorem prepare_swallows_probe_error :
    ∀ fs dir parentIDs snPath id e,
      isOverlaybdLayer fs dir = (false, some e) →
      PrepareOverlayBDSpec fs dir parentIDs snPath id =
        { handled := false, err := none, fs := fs, evs := [] } := by
  intro fs dir parentIDs snPath id e h
  simp [PrepareOverlayBDSpec, h]

/-- Witness: on a concrete layer whose first marker file stats with a
permission-style error, the probe reports the error and the orchestrator
returns `(false, nil)`. -/
theorem prepare_swallows_probe_error_witness :
    PrepareOverlayBDSpec wFSStatErr "/L" [] wSnPath "x" =
      { handled := false, err := none, fs := wFSStatErr, evs := [] } :=
  prepare_swallows_probe_error wFSStatErr "/L" [] wSnPath "x"
    "LSMD ERROR failed to IsZdfsLayerInApplyDiff: statErr" (by rfl)

/-! Event-trace lemmas: every inner operation emits only benign events
(no `call`, no lock events); `doDir` prepends exactly one `call` event. -/

theorem atomicWrite_evs_benign (fs : FS) (dir : String) (c : OverlayBDBSConfig) :
    (atomicWriteOverlaybdTargetConfig fs dir c).evs.all benignEv = true := by
  simp only [atomicWriteOverlaybdTargetConfig]
  split
  · rfl
  · rfl

theorem updateSpec_evs_benign (fs : FS) (dir p : String) :
    (updateSpec fs dir p).evs.all benignEv = true := by
  simp only [updateSpec]
  rcases h : loadBackingStoreConfig fs dir with e | c <;> simp only [h]
  · rfl
  · by_cases hp : p = c.recordTracePath
    · simp only [if_pos hp]
      rfl
    · simp only [if_neg hp]
      exact atomicWrite_evs_benign _ _ _

theorem constructSpec_evs_benign (fs : FS) (dir parent repo digest : String) (size : Nat)
    (tr : String) : (constructSpec fs dir parent repo digest size tr).evs.all benignEv = true := by
  simp only [constructSpec]
  by_cases hp : parent = ""
  · simp only [if_pos hp]
    exact atomicWrite_evs_benign _ _ _
  · simp only [if_neg hp]
    rcases h : loadBackingStoreConfig fs parent with e | pc <;> simp only [h]
    · rfl
    · exact atomicWrite_evs_benign _ _ _

theorem makeConfig_evs_benign (fs : FS) (dir parent : String) :
    (makeConfig fs dir parent).evs.all benignEv = true := by
  simp only [makeConfig]
  rcases h : GetBlobRepoDigest (getLayer fs dir).blockFiles with e | rd <;> simp only [h]
  · rfl
  · exact constructSpec_evs_benign _ _ _ _ _ _ _

theorem copyLoop_evs_benign (src : String) (dst : CopyDst) :
    ∀ (ns : List String) (acc : StepRes), acc.evs.all benignEv = true →
      (copyLoop src dst acc ns).evs.all benignEv = true := by
  intro ns
  induction ns with
  | nil => intro acc h; exact h
  | cons name rest ih =>
    intro acc h
    simp only [copyLoop]
    rcases hacc : acc.err with _ | e <;> simp only [hacc]
    · split
      · exact h
      · rcases hs : getA (getLayer acc.fs src).fsFiles name with _ | content <;> simp only [hs]
        · exact ih acc h
        · split
          · exact h
          · refine ih _ ?_
            simp [h, benignEv, isCallEv, isLockEv]
    · exact h

theorem copyPulled_evs_benign (fs : FS) (src : String) (dst : CopyDst) :
    (copyPulledZdfsMetaFiles fs src dst).evs.all benignEv = true :=
  copyLoop_evs_benign src dst metaCopyNames _ (by rfl)

theorem doDir_evs_shape (fs : FS) (d p : String) :
    ∃ rest, (doDir fs d p).evs = Ev.call d p :: rest ∧ rest.all benignEv = true := by
  simp only [doDir]
  split
  · exact ⟨[], rfl, rfl⟩
  · split
    · split
      · exact ⟨[], rfl, rfl⟩
      · split
        · exact ⟨_, rfl, updateSpec_evs_benign _ _ _⟩
        · exact ⟨_, rfl, makeConfig_evs_benign _ _ _⟩
    · split
      · exact ⟨[], rfl, rfl⟩
      · split
        · exact ⟨[], rfl, rfl⟩
        · split
          · refine ⟨_, rfl, ?_⟩
            simp [benignEv, isCallEv, isLockEv, copyPulled_evs_benign]
          · split
            · refine ⟨_, rfl, ?_⟩
              simp [benignEv, isCallEv, isLockEv, copyPulled_evs_benign]
            · split
              · refine ⟨_, rfl, ?_⟩
                simp [benignEv, isCallEv, isLockEv, copyPulled_evs_benign]
              · refine ⟨_, rfl, ?_⟩
                simp [benignEv, isCallEv, isLockEv, copyPulled_evs_benign,
                  makeConfig_evs_benign]

theorem benign_not_call {l : List Ev} (h : l.all benignEv = true) :
    l.filter isCallEv = [] := by
  induction l with
  | nil => rfl
  | cons e t ih =>
    simp only [List.all_cons, Bool.and_eq_true] at h
    have he : isCallEv e = false := by
      revert h
      unfold benignEv
      cases isCallEv e <;> simp
    simp [List.filter_cons, he, ih h.2]

theorem benign_not_lock {l : List Ev} (h : l.all benignEv = true) :
    l.all (fun e => !(isLockEv e)) = true := by
  induction l with
  | nil => rfl
  | cons e t ih =>
    simp only [List.all_cons, Bool.and_eq_true] at h ⊢
    refine ⟨?_, ih h.2⟩
    have := h.1
    revert this
    unfold benignEv
    cases isLockEv e <;> simp

theorem doDir_filter_call (fs : FS) (d p : String) :
    (doDir fs d p).evs.filter isCallEv = [Ev.call d p] := by
  obtain ⟨rest, heq, hb⟩ := doDir_evs_shape fs d p
  rw [heq]
  simp [List.filter_cons, isCallEv, benign_not_call hb]

theorem doDir_all_notLock (fs : FS) (d p : String) :
    (doDir fs d p).evs.all (fun e => !(isLockEv e)) = true := by
  obtain ⟨rest, heq, hb⟩ := doDir_evs_shape fs d p
  rw [heq]
  simp only [List.all_cons, Bool.and_eq_true]
  exact ⟨by simp [isLockEv], benign_not_lock hb⟩

theorem walk_all_notLock : ∀ (ds : List String) (fs : FS) (p0 : String),
    (walk fs ds p0).evs.all (fun e => !(isLockEv e)) = true := by
  intro ds
  induction ds with
  | nil => intro fs p0; rfl
  | cons d rest ih =>
    intro fs p0
    simp only [walk]
    rcases h : (doDir fs d p0).err with _ | e <;> simp only [h]
    · simp only [List.all_append, Bool.and_eq_true]
      exact ⟨doDir_all_notLock _ _ _, ih _ _⟩
    · exact doDir_all_notLock _ _ _

/-- C7 (code bug): `PrepareOverlayBDSpec` performs its whole walk without
ever emitting a lock event — the declared `pouchDirLock` mutex is never
acquired on any input, so concurrent preparation requests are not
serialized by it. -/
theorem PrepareOverlayBDSpec_never_locks :
    ∀ (fs : FS) (dir : String) (parentIDs : List String) (snPath : String → String)
      (id : String),
      (PrepareOverlayBDSpec fs dir parentIDs snPath id).evs.all
        (fun e => !(isLockEv e)) = true := by
  intro fs dir parentIDs snPath id
  simp only [PrepareOverlayBDSpec]
  split
  · rfl
  · split
    · rfl
    · rcases h : (walk fs (dirsOrder (parentIDs.map snPath)) "").err with _ | e <;>
        simp only [h]
      · simp only [List.all_append, Bool.and_eq_true]
        exact ⟨walk_all_notLock _ _ _, doDir_all_notLock _ _ _⟩
      · exact walk_all_notLock _ _ _

theorem callsFrom_cons (p0 d : String) (rest : List String) :
    callsFrom p0 (d :: rest) = Ev.call d p0 :: callsFrom d rest := rfl

theorem callsFrom_append_last (a : String) : ∀ (ds : List String) (p0 : String),
    callsFrom p0 (ds ++ [a]) = callsFrom p0 ds ++ [Ev.call a (lastD ds p0)] := by
  intro ds
  induction ds with
  | nil => intro p0; rfl
  | cons d rest ih =>
    intro p0
    simp only [List.cons_append, callsFrom_cons, ih d, lastD]

theorem walk_calls_of_err_none : ∀ (ds : List String) (fs : FS) (p0 : String),
    (walk fs ds p0).err = none →
    (walk fs ds p0).evs.filter isCallEv = callsFrom p0 ds ∧
    (walk fs ds p0).parent = lastD ds p0 := by
  intro ds
  induction ds with
  | nil => intro fs p0 _; exact ⟨rfl, rfl⟩
  | cons d rest ih =>
    intro fs p0 herr
    simp only [walk] at herr ⊢
    rcases h : (doDir fs d p0).err with _ | e <;> simp only [h] at herr ⊢
    · obtain ⟨h1, h2⟩ := ih (doDir fs d p0).fs d herr
      constructor
      · simp only [List.filter_append, doDir_filter_call, h1, callsFrom_cons]
        rfl
      · exact h2
    · exact absurd herr (by simp)

theorem dirsOrder_eq_reverse (l : List String) : dirsOrder l = l.reverse := by
  apply List.ext_getElem
  · simp [dirsOrder]
  · intro i h1 h2
    simp only [dirsOrder, List.length_map, List.length_range] at h1
    simp only [dirsOrder, List.getElem_map, List.getElem_range, List.getElem_reverse]
    rw [List.getD_eq_getElem]
    · congr 1
      omega
    · omega

/-- C2: for a snapshot the probe accepts, an error-free run invokes the
per-directory procedure on the resolved ancestor directories in
oldest-to-newest order (the reverse of the parent-ID list, which carries
the immediate parent first) and then, last, on the active layer's
directory; each invocation receives as parent the immediately preceding
directory in that order, the first receiving the empty string. -/
theorem prepare_walk_order :
    ∀ (fs : FS) (dir : String) (parentIDs : List String) (snPath : String → String)
      (id : String),
      (PrepareOverlayBDSpec fs dir parentIDs snPath id).handled = true →
      (PrepareOverlayBDSpec fs dir parentIDs snPath id).err = none →
      (PrepareOverlayBDSpec fs dir parentIDs snPath id).evs.filter isCallEv =
        expectedCalls ((parentIDs.map snPath).reverse ++ [snPath id]) := by
  intro fs dir parentIDs snPath id hh herr
  rcases hpr : isOverlaybdLayer fs dir with ⟨b, oe⟩
  cases b with
  | false =>
    have hred : PrepareOverlayBDSpec fs dir parentIDs snPath id =
        { handled := false, err := none, fs := fs, evs := [] } := by
      unfold PrepareOverlayBDSpec; rw [hpr]; rfl
    rw [hred] at hh
    simp at hh
  | true =>
    rcases oe with _ | e2
    · have hred : PrepareOverlayBDSpec fs dir parentIDs snPath id =
          (match (walk fs (dirsOrder (parentIDs.map snPath)) "").err with
           | some e =>
             { handled := true, err := some e
               fs := (walk fs (dirsOrder (parentIDs.map snPath)) "").fs
               evs := (walk fs (dirsOrder (parentIDs.map snPath)) "").evs }
           | none =>
             { handled := true
               err := (doDir (walk fs (dirsOrder (parentIDs.map snPath)) "").fs (snPath id)
                 (walk fs (dirsOrder (parentIDs.map snPath)) "").parent).err
               fs := (doDir (walk fs (dirsOrder (parentIDs.map snPath)) "").fs (snPath id)
                 (walk fs (dirsOrder (parentIDs.map snPath)) "").parent).fs
               evs := (walk fs (dirsOrder (parentIDs.map snPath)) "").evs ++
                 (doDir (walk fs (dirsOrder (parentIDs.map snPath)) "").fs (snPath id)
                   (walk fs (dirsOrder (parentIDs.map snPath)) "").parent).evs }) := by
        unfold PrepareOverlayBDSpec; rw [hpr]; rfl
      rcases hw : (walk fs (dirsOrder (parentIDs.map snPath)) "").err with _ | e
      · have hcalls := walk_calls_of_err_none _ fs "" hw
        rw [hred, hw]
        show ((walk fs (dirsOrder (parentIDs.map snPath)) "").evs ++
          (doDir (walk fs (dirsOrder (parentIDs.map snPath)) "").fs (snPath id)
            (walk fs (dirsOrder (parentIDs.map snPath)) "").parent).evs).filter isCallEv = _
        simp only [expectedCalls]
        rw [List.filter_append, hcalls.1, doDir_filter_call, hcalls.2,
          callsFrom_append_last, ← dirsOrder_eq_reverse]
      · rw [hred, hw] at herr
        simp at herr
    · have hred : PrepareOverlayBDSpec fs dir parentIDs snPath id =
          { handled := false, err := some e2, fs := fs, evs := [] } := by
        unfold PrepareOverlayBDSpec; rw [hpr]; rfl
      rw [hred] at hh
      simp at hh

/-- Witness instantiating C2's walk-order theorem on a prepared
two-ancestor chain: the call trace is base, middle, active, each with the
preceding directory as parent. -/
theorem prepare_walk_order_witness :
    (PrepareOverlayBDSpec wFSChain "/act" ["a1", "a0"] wSnPath "act").evs.filter isCallEv =
      expectedCalls ((["a1", "a0"].map wSnPath).reverse ++ [wSnPath "act"]) :=
  prepare_walk_order wFSChain "/act" ["a1", "a0"] wSnPath "act" (by decide) (by decide)

theorem doDir_prepared (fs : FS) (d p : String) (h : preparedLayer fs d = true) :
    doDir fs d p = { fs := fs, evs := [Ev.call d p], err := none } := by
  simp only [preparedLayer, Bool.and_eq_true, Bool.not_eq_true'] at h
  obtain ⟨⟨h1, h2⟩, h3⟩ := h
  have h2' : fs.statErrs.contains (goPathJoin [d, "block", "config.v1.json"]) = false := h2
  rcases hz : (getLayer fs d).zdfsmeta with _ | zm <;>
    rcases hc : (getLayer fs d).config with _ | c <;>
      rw [hz, hc] at h3
  · exact absurd h3 (by simp)
  · simp only [doDir, h1, Bool.false_eq_true, if_false, hz, Option.isSome_none,
      newFmtCheck, h2', hc, Option.isSome_some, if_true]
  · exact absurd h3 (by simp)
  · have htr : c.recordTracePath = "" := by simpa using h3
    simp only [doDir, h1, Bool.false_eq_true, if_false, hz, Option.isSome_some, if_true, h2,
      hc, updateSpec, loadBackingStoreConfig, hc, htr, if_pos rfl]

theorem walk_prepared : ∀ (ds : List String) (fs : FS) (p0 : String),
    (∀ d ∈ ds, preparedLayer fs d = true) →
    walk fs ds p0 = { fs := fs, evs := callsFrom p0 ds, err := none, parent := lastD ds p0 } := by
  intro ds
  induction ds with
  | nil => intro fs p0 _; rfl
  | cons d rest ih =>
    intro fs p0 h
    have hd := h d (List.mem_cons_self d rest)
    have hr : ∀ x ∈ rest, preparedLayer fs x = true :=
      fun x hx => h x (List.mem_cons_of_mem _ hx)
    simp only [walk, doDir_prepared fs d p0 hd]
    simp only [ih fs d hr]
    rfl

/-- C4: running `PrepareOverlayBDSpec` on a chain whose every directory is
already prepared (migrated metadata present with a descriptor whose stored
trace path is empty, or the new format exposing the descriptor directly) is
a complete no-op: the filesystem — in particular every stored descriptor —
is unchanged, no error occurs, and the trace holds only the per-directory
entry markers: no file copy, no temp-directory creation, no rename, no
descriptor write. -/
theorem prepare_idempotent :
    ∀ (fs : FS) (dir : String) (parentIDs : List String) (snPath : String → String)
      (id : String),
      (∀ d ∈ dirsOrder (parentIDs.map snPath) ++ [snPath id], preparedLayer fs d = true) →
      isOverlaybdLayer fs dir = (true, none) →
      PrepareOverlayBDSpec fs dir parentIDs snPath id =
        { handled := true, err := none, fs := fs
          evs := expectedCalls (dirsOrder (parentIDs.map snPath) ++ [snPath id]) } := by
  intro fs dir parentIDs snPath id hprep hprobe
  have hds : ∀ d ∈ dirsOrder (parentIDs.map snPath), preparedLayer fs d = true :=
    fun d hd => hprep d (List.mem_append_left _ hd)
  have hact : preparedLayer fs (snPath id) = true :=
    hprep _ (List.mem_append_right _ (List.mem_singleton.mpr rfl))
  have hred : PrepareOverlayBDSpec fs dir parentIDs snPath id =
      (match (walk fs (dirsOrder (parentIDs.map snPath)) "").err with
       | some e =>
         { handled := true, err := some e
           fs := (walk fs (dirsOrder (parentIDs.map snPath)) "").fs
           evs := (walk fs (dirsOrder (parentIDs.map snPath)) "").evs }
       | none =>
         { handled := true
           err := (doDir (walk fs (dirsOrder (parentIDs.map snPath)) "").fs (snPath id)
             (walk fs (dirsOrder (parentIDs.map snPath)) "").parent).err
           fs := (doDir (walk fs (dirsOrder (parentIDs.map snPath)) "").fs (snPath id)
             (walk fs (dirsOrder (parentIDs.map snPath)) "").parent).fs
           evs := (walk fs (dirsOrder (parentIDs.map snPath)) "").evs ++
             (doDir (walk fs (dirsOrder (parentIDs.map snPath)) "").fs (snPath id)
               (walk fs (dirsOrder (parentIDs.map snPath)) "").parent).evs }) := by
    unfold PrepareOverlayBDSpec; rw [hprobe]; rfl
  rw [hred, walk_prepared _ fs "" hds]
  simp only [doDir_prepared fs (snPath id) _ hact]
  simp only [expectedCalls, callsFrom_append_last]

/-- Witness instantiating C4's idempotence theorem on a prepared
two-ancestor chain: the second run returns the state unchanged with only
the three no-op confirmation markers. -/
theorem prepare_idempotent_witness :
    PrepareOverlayBDSpec wFSChain "/act" ["a1", "a0"] wSnPath "act" =
      { handled := true, err := none, fs := wFSChain
        evs := expectedCalls (dirsOrder (["a1", "a0"].map wSnPath) ++ [wSnPath "act"]) } :=
  prepare_idempotent wFSChain "/act" ["a1", "a0"] wSnPath "act" (by decide) (by rfl)

/-! State-preservation lemmas for the migration atomicity property:
descriptor writes never touch the `zdfsmeta` slot, copies touch only the
destination slot, and the only operation installing `zdfsmeta` is the
rename, which installs the completely copied temp directory. -/

theorem atomicWrite_zdfsmeta (fs : FS) (dir : String) (c : OverlayBDBSConfig) (x : String) :
    (getLayer (atomicWriteOverlaybdTargetConfig fs dir c).fs x).zdfsmeta =
      (getLayer fs x).zdfsmeta := by
  simp only [atomicWriteOverlaybdTargetConfig]
  split
  · rfl
  · by_cases hx : dir = x
    · subst hx; rw [getLayer_setLayer_same]
    · rw [getLayer_setLayer_ne _ _ _ _ hx]

theorem updateSpec_zdfsmeta (fs : FS) (dir p x : String) :
    (getLayer (updateSpec fs dir p).fs x).zdfsmeta = (getLayer fs x).zdfsmeta := by
  simp only [updateSpec]
  rcases h : loadBackingStoreConfig fs dir with e | c
  · simp [h]
  · simp only [h]
    by_cases hp : p = c.recordTracePath
    · simp [if_pos hp]
    · simp only [if_neg hp]
      exact atomicWrite_zdfsmeta _ _ _ _

theorem constructSpec_zdfsmeta (fs : FS) (dir parent repo digest : String) (size : Nat)
    (tr x : String) :
    (getLayer (constructSpec fs dir parent repo digest size tr).fs x).zdfsmeta =
      (getLayer fs x).zdfsmeta := by
  simp only [constructSpec]
  by_cases hp : parent = ""
  · simp only [if_pos hp]
    exact atomicWrite_zdfsmeta _ _ _ _
  · simp only [if_neg hp]
    rcases h : loadBackingStoreConfig fs parent with e | pc
    · simp [h]
    · simp only [h]
      exact atomicWrite_zdfsmeta _ _ _ _

theorem makeConfig_zdfsmeta (fs : FS) (dir parent x : String) :
    (getLayer (makeConfig fs dir parent).fs x).zdfsmeta = (getLayer fs x).zdfsmeta := by
  simp only [makeConfig]
  rcases h : GetBlobRepoDigest (getLayer fs dir).blockFiles with e | rd
  · simp [h]
  · simp only [h]
    exact constructSpec_zdfsmeta _ _ _ _ _ _ _ _

theorem writeTo_zdfsmeta (fs : FS) (dst : CopyDst) (name content x : String) :
    (getLayer (writeTo fs dst name content) x).zdfsmeta = (getLayer fs x).zdfsmeta := by
  cases dst with
  | toTemp d t =>
    simp only [writeTo]
    by_cases hx : d = x
    · subst hx; rw [getLayer_setLayer_same]
    · rw [getLayer_setLayer_ne _ _ _ _ hx]
  | toBlock d =>
    simp only [writeTo]
    by_cases hx : d = x
    · subst hx; rw [getLayer_setLayer_same]
    · rw [getLayer_setLayer_ne _ _ _ _ hx]

theorem writeTo_fsFiles (fs : FS) (dst : CopyDst) (name content x : String) :
    (getLayer (writeTo fs dst name content) x).fsFiles = (getLayer fs x).fsFiles := by
  cases dst with
  | toTemp d t =>
    simp only [writeTo]
    by_cases hx : d = x
    · subst hx; rw [getLayer_setLayer_same]
    · rw [getLayer_setLayer_ne _ _ _ _ hx]
  | toBlock d =>
    simp only [writeTo]
    by_cases hx : d = x
    · subst hx; rw [getLayer_setLayer_same]
    · rw [getLayer_setLayer_ne _ _ _ _ hx]

theorem writeTo_toBlock_temps (fs : FS) (d name content x : String) :
    (getLayer (writeTo fs (CopyDst.toBlock d) name content) x).temps =
      (getLayer fs x).temps := by
  simp only [writeTo]
  by_cases hx : d = x
  · subst hx; rw [getLayer_setLayer_same]
  · rw [getLayer_setLayer_ne _ _ _ _ hx]

theorem copyLoop_zdfsmeta (src : String) (dst : CopyDst) :
    ∀ (ns : List String) (acc : StepRes) (x : String),
      (getLayer (copyLoop src dst acc ns).fs x).zdfsmeta = (getLayer acc.fs x).zdfsmeta := by
  intro ns
  induction ns with
  | nil => intro acc x; rfl
  | cons name rest ih =>
    intro acc x
    simp only [copyLoop]
    rcases hacc : acc.err with _ | e
    · simp only [hacc]
      split
      · rfl
      · rcases hs : getA (getLayer acc.fs src).fsFiles name with _ | content <;>
          simp only [hs]
        · exact ih acc x
        · split
          · rfl
          · rw [ih _ x]
            exact writeTo_zdfsmeta _ _ _ _ _
    · simp [hacc]

theorem copyLoop_fsFiles (src : String) (dst : CopyDst) :
    ∀ (ns : List String) (acc : StepRes) (x : String),
      (getLayer (copyLoop src dst acc ns).fs x).fsFiles = (getLayer acc.fs x).fsFiles := by
  intro ns
  induction ns with
  | nil => intro acc x; rfl
  | cons name rest ih =>
    intro acc x
    simp only [copyLoop]
    rcases hacc : acc.err with _ | e
    · simp only [hacc]
      split
      · rfl
      · rcases hs : getA (getLayer acc.fs src).fsFiles name with _ | content <;>
          simp only [hs]
        · exact ih acc x
        · split
          · rfl
          · rw [ih _ x]
            exact writeTo_fsFiles _ _ _ _ _
    · simp [hacc]

theorem copyLoop_toBlock_temps (src d : String) :
    ∀ (ns : List String) (acc : StepRes) (x : String),
      (getLayer (copyLoop src (CopyDst.toBlock d) acc ns).fs x).temps =
        (getLayer acc.fs x).temps := by
  intro ns
  induction ns with
  | nil => intro acc x; rfl
  | cons name rest ih =>
    intro acc x
    simp only [copyLoop]
    rcases hacc : acc.err with _ | e
    · simp only [hacc]
      split
      · rfl
      · rcases hs : getA (getLayer acc.fs src).fsFiles name with _ | content <;>
          simp only [hs]
        · exact ih acc x
        · split
          · rfl
          · rw [ih _ x]
            exact writeTo_toBlock_temps _ _ _ _ _
    · simp [hacc]

theorem copyLoop_temp_content (d tmp : String) :
    ∀ (ns : List String) (acc : StepRes) (t0 : List (String × String)),
      getA (getLayer acc.fs d).temps tmp = some t0 →
      (copyLoop d (CopyDst.toTemp d tmp) acc ns).err = none →
      getA (getLayer (copyLoop d (CopyDst.toTemp d tmp) acc ns).fs d).temps tmp =
        some (copyFold (getLayer acc.fs d).fsFiles ns t0) := by
  intro ns
  induction ns with
  | nil =>
    intro acc t0 h _
    simpa [copyLoop, copyFold] using h
  | cons name rest ih =>
    intro acc t0 h herr
    simp only [copyLoop] at herr ⊢
    rcases hacc : acc.err with _ | e <;> simp only [hacc] at herr ⊢
    · by_cases hst : acc.fs.statErrs.contains (goPathJoin [d, "fs", name]) = true
      · rw [if_pos hst] at herr
        exact absurd herr (by simp)
      · rw [if_neg hst] at herr ⊢
        rcases hs : getA (getLayer acc.fs d).fsFiles name with _ | content <;>
          simp only [hs] at herr ⊢
        · rw [ih acc t0 h herr]
          simp only [copyFold, List.foldl_cons, hs]
        · by_cases hfw : acc.fs.failWrites.contains
              (dstPathOf (CopyDst.toTemp d tmp) name) = true
          · rw [if_pos hfw] at herr
            exact absurd herr (by simp)
          · rw [if_neg hfw] at herr ⊢
            have hacc' : getA (getLayer (writeTo acc.fs (CopyDst.toTemp d tmp) name
                content) d).temps tmp = some (putAssoc t0 name content) := by
              simp only [writeTo, getLayer_setLayer_same, h, Option.getD_some,
                getA_putAssoc_same]
            rw [ih _ _ hacc' herr]
            rw [writeTo_fsFiles]
            simp only [copyFold, List.foldl_cons, hs]
    · simp [hacc] at herr

theorem copyPulled_zdfsmeta (fs : FS) (src : String) (dst : CopyDst) (x : String) :
    (getLayer (copyPulledZdfsMetaFiles fs src dst).fs x).zdfsmeta =
      (getLayer fs x).zdfsmeta :=
  copyLoop_zdfsmeta src dst metaCopyNames { fs := fs, evs := [], err := none } x

theorem copyPulled_fsFiles (fs : FS) (src : String) (dst : CopyDst) (x : String) :
    (getLayer (copyPulledZdfsMetaFiles fs src dst).fs x).fsFiles =
      (getLayer fs x).fsFiles :=
  copyLoop_fsFiles src dst metaCopyNames { fs := fs, evs := [], err := none } x

theorem copyPulled_toBlock_temps (fs : FS) (src d x : String) :
    (getLayer (copyPulledZdfsMetaFiles fs src (CopyDst.toBlock d)).fs x).temps =
      (getLayer fs x).temps :=
  copyLoop_toBlock_temps src d metaCopyNames { fs := fs, evs := [], err := none } x

theorem copyPulled_temp_content (fs : FS) (d tmp : String) (t0 : List (String × String))
    (h : getA (getLayer fs d).temps tmp = some t0)
    (herr : (copyPulledZdfsMetaFiles fs d (CopyDst.toTemp d tmp)).err = none) :
    getA (getLayer (copyPulledZdfsMetaFiles fs d (CopyDst.toTemp d tmp)).fs d).temps tmp =
      some (copyFold (getLayer fs d).fsFiles metaCopyNames t0) :=
  copyLoop_temp_content d tmp metaCopyNames { fs := fs, evs := [], err := none } t0 h herr

theorem setLayer_temps_zdfsmeta (fs : FS) (d : String)
    (ts : List (String × List (String × String))) (x : String) :
    (getLayer (setLayer fs d { getLayer fs d with temps := ts }) x).zdfsmeta =
      (getLayer fs x).zdfsmeta := by
  by_cases hx : d = x
  · subst hx; rw [getLayer_setLayer_same]
  · rw [getLayer_setLayer_ne _ _ _ _ hx]

/-- C3 (amended): the `zdfsmeta` directory slot is atomic — across any
`doDir` run, failed or successful, each layer's `zdfsmeta` slot is either
exactly what it was before or the complete migrated bundle installed by the
rename (every marker file present under the layer's `fs` subdirectory); it
is never partially populated.  (The direct copies into the `block`
directory and the temporary directory itself are not cleaned up on
failure — see the counterexample.) -/
theorem doDir_zdfsmeta_atomic :
    ∀ (fs : FS) (d p x : String),
      (getLayer (doDir fs d p).fs x).zdfsmeta = (getLayer fs x).zdfsmeta ∨
      (getLayer (doDir fs d p).fs x).zdfsmeta = some (bundleOf (getLayer fs x)) := by
  intro fs d p x
  simp only [doDir]
  split
  · exact Or.inl rfl
  · split
    · split
      · exact Or.inl rfl
      · split
        · exact Or.inl (updateSpec_zdfsmeta _ _ _ _)
        · exact Or.inl (makeConfig_zdfsmeta _ _ _ _)
    · split
      · exact Or.inl rfl
      · split
        · exact Or.inl rfl
        · split
          · refine Or.inl ?_
            rw [copyPulled_zdfsmeta, setLayer_temps_zdfsmeta]
          · split
            · refine Or.inl ?_
              rw [copyPulled_zdfsmeta, copyPulled_zdfsmeta, setLayer_temps_zdfsmeta]
            · split
              · refine Or.inl ?_
                rw [copyPulled_zdfsmeta, copyPulled_zdfsmeta, setLayer_temps_zdfsmeta]
              · have h2n : (copyPulledZdfsMetaFiles (setLayer fs d
                    { getLayer fs d with
                      temps := putAssoc (getLayer fs d).temps tmpDirName [] }) d
                    (CopyDst.toTemp d tmpDirName)).err = none := by assumption
                rw [makeConfig_zdfsmeta]
                by_cases hx : d = x
                · subst hx
                  rw [getLayer_setLayer_same]
                  right
                  have hstart : getA (getLayer (setLayer fs d
                      { getLayer fs d with
                        temps := putAssoc (getLayer fs d).temps tmpDirName [] }) d).temps
                      tmpDirName = some [] := by
                    rw [getLayer_setLayer_same]
                    exact getA_putAssoc_same _ _ _
                  have hcontent := copyPulled_temp_content _ d tmpDirName [] hstart h2n
                  rw [copyPulled_toBlock_temps, hcontent]
                  rw [getLayer_setLayer_same]
                  simp [bundleOf]
                · rw [getLayer_setLayer_ne _ _ _ _ hx, copyPulled_zdfsmeta,
                    copyPulled_zdfsmeta, setLayer_temps_zdfsmeta]
                  exact Or.inl rfl

/-- C3 counterexample: a legacy-layer migration whose copy into the
`block` directory fails on the second file aborts with an error before the
rename, leaving observable partially-applied state — the block directory
holds exactly the first copied marker file and the populated temporary
directory is left behind — refuting the blanket no-partial-state claim,
while the `zdfsmeta` slot itself is indeed still absent. -/
theorem migration_partial_state :
    (doDir wFSCrash "/L" "").err.isSome = true ∧
    (doDir wFSCrash "/L" "").fs ≠ wFSCrash ∧
    (getLayer (doDir wFSCrash "/L" "").fs "/L").zdfsmeta = none ∧
    (getLayer (doDir wFSCrash "/L" "").fs "/L").blockFiles = [(iNewFormat, "x")] ∧
    (getLayer (doDir wFSCrash "/L" "").fs "/L").temps ≠ [] := by
  refine ⟨by decide, by decide, by decide, by decide, by decide⟩

end Zdfs

